import Mathlib

set_option maxHeartbeats 1000000

/-!
Shallow embedding of `ckanext/dcat/profiles.py`: the RDF node/graph data
model the profiles operate on, the generic graph accessors of `RDFProfile`,
and the pieces of `EuropeanDCATAPProfile.parse_dataset` /
`graph_from_dataset` that the verified properties are about.  Graphs are
lists of `(subject, predicate, object)` triples; iteration order of the
accessors is the list order, standing for the backend's native order.
-/

/-- An rdflib term: a named reference (`URIRef`), a blank node (`BNode`),
or a literal carrying an optional language tag and an optional datatype. -/
inductive Node where
  | uri (s : String)
  | bnode (s : String)
  | lit (s : String) (lang : Option String) (dtype : Option String)
deriving DecidableEq, Repr

/-- A `(subject, predicate, object)` triple. -/
abbrev Triple := Node × Node × Node

/-- The triple graph, in insertion order. -/
abbrev Graph := List Triple

/-- Python `str(term)`: the URI text, blank-node id, or lexical form. -/
def strNode : Node → String
  | Node.uri s => s
  | Node.bnode s => s
  | Node.lit s _ _ => s

/-- `isinstance(term, URIRef)`. -/
def isUriNode : Node → Bool
  | Node.uri _ => true
  | _ => false

/-- `isinstance(term, BNode)`. -/
def isBNodeNode : Node → Bool
  | Node.bnode _ => true
  | _ => false

/-- `isinstance(term, Literal)`. -/
def isLitNode : Node → Bool
  | Node.lit _ _ _ => true
  | _ => false

/-! ### Vocabulary constants used by the claims (module-level namespaces) -/

def rdfType : Node := Node.uri "http://www.w3.org/1999/02/22-rdf-syntax-ns#type"

def rdfValue : Node := Node.uri "http://www.w3.org/1999/02/22-rdf-syntax-ns#value"

def rdfsLabel : Node := Node.uri "http://www.w3.org/2000/01/rdf-schema#label"

def dctTitle : Node := Node.uri "http://purl.org/dc/terms/title"

def dctDescription : Node := Node.uri "http://purl.org/dc/terms/description"

def dctFormat : Node := Node.uri "http://purl.org/dc/terms/format"

def dctIMT : Node := Node.uri "http://purl.org/dc/terms/IMT"

def dctLicense : Node := Node.uri "http://purl.org/dc/terms/license"

def dctAccessRights : Node := Node.uri "http://purl.org/dc/terms/accessRights"

def dctRightsStatement : Node := Node.uri "http://purl.org/dc/terms/RightsStatement"

def dctHasPart : Node := Node.uri "http://purl.org/dc/terms/hasPart"

def dctPublisher : Node := Node.uri "http://purl.org/dc/terms/publisher"

def dctType : Node := Node.uri "http://purl.org/dc/terms/type"

def dcatDatasetCls : Node := Node.uri "http://www.w3.org/ns/dcat#Dataset"

def dcatCatalogCls : Node := Node.uri "http://www.w3.org/ns/dcat#Catalog"

def dcatDatasetPred : Node := Node.uri "http://www.w3.org/ns/dcat#dataset"

def dcatDistribution : Node := Node.uri "http://www.w3.org/ns/dcat#distribution"

def dcatKeyword : Node := Node.uri "http://www.w3.org/ns/dcat#keyword"

def dcatMediaType : Node := Node.uri "http://www.w3.org/ns/dcat#mediaType"

def foafName : Node := Node.uri "http://xmlns.com/foaf/0.1/name"

def foafMbox : Node := Node.uri "http://xmlns.com/foaf/0.1/mbox"

def foafHomepage : Node := Node.uri "http://xmlns.com/foaf/0.1/homepage"

def vcardFn : Node := Node.uri "http://www.w3.org/2006/vcard/ns#fn"

def vcardHasFN : Node := Node.uri "http://www.w3.org/2006/vcard/ns#hasFN"

def vcardHasEmail : Node := Node.uri "http://www.w3.org/2006/vcard/ns#hasEmail"

def vcardHasValue : Node := Node.uri "http://www.w3.org/2006/vcard/ns#hasValue"

def xsdDateTime : String := "http://www.w3.org/2001/XMLSchema#dateTime"

/-! ### Generic graph accessors (`RDFProfile`) -/

/-- `Graph.objects(subject, predicate)`: the objects of all matching
triples, in graph order. -/
def objects (g : Graph) (s p : Node) : List Node :=
  (g.filter (fun t => decide (t.1 = s) && decide (t.2.1 = p))).map (fun t => t.2.2)

/-- `RDFProfile._object`: the first object for this subject and predicate,
or `None`. -/
def firstObject (g : Graph) (s p : Node) : Option Node :=
  (objects g s p).head?

/-- `Graph.subjects(predicate, object)`: subjects of all matching triples. -/
def subjectsPO (g : Graph) (p o : Node) : List Node :=
  (g.filter (fun t => decide (t.2.1 = p) && decide (t.2.2 = o))).map (fun t => t.1)

/-- `Graph.subjects(predicate)` (any object): subjects of all triples with
this predicate. -/
def subjectsP (g : Graph) (p : Node) : List Node :=
  (g.filter (fun t => decide (t.2.1 = p))).map (fun t => t.1)

/-- The truthy language-match test of `_object_value`:
`o.language and o.language == default_lang`. -/
def langIsDefault (lang : Option String) (dl : String) : Bool :=
  match lang with
  | some l => decide (l ≠ "") && decide (l = dl)
  | none => false

/-- The scanning loop of `RDFProfile._object_value`: return a literal tagged
with the default locale immediately; keep the first non-empty literal text as
fallback; return any non-literal object immediately; else the fallback. -/
def objectValueGo (dl : String) : List Node → String → String
  | [], fb => fb
  | o :: rest, fb =>
    match o with
    | Node.lit v lang _ =>
      if langIsDefault lang dl then v
      else if fb = "" then objectValueGo dl rest v
      else objectValueGo dl rest fb
    | _ => strNode o

/-- `RDFProfile._object_value` with the configured default locale `dl`. -/
def objectValue (dl : String) (g : Graph) (s p : Node) : String :=
  objectValueGo dl (objects g s p) ""

/-- `RDFProfile._object_value_list`: `str` of every object. -/
def objectValueList (g : Graph) (s p : Node) : List String :=
  (objects g s p).map strNode

/-! ### Python string helpers -/

/-- The characters removed by Python's `str.strip()` (ASCII whitespace). -/
def isPySpace (c : Char) : Bool :=
  [' ', Char.ofNat 9, Char.ofNat 10, Char.ofNat 13, Char.ofNat 11, Char.ofNat 12].contains c

/-- Python `str.strip()` on a character list: drop leading and trailing
whitespace. -/
def pyStripL (l : List Char) : List Char :=
  ((l.dropWhile isPySpace).reverse.dropWhile isPySpace).reverse

/-- Python `str.strip()`. -/
def pyStripS (s : String) : String :=
  ⟨pyStripL s.data⟩

/-- Python `str.split(sep)` for a single-character separator, on character
lists (the accumulator holds the current piece reversed). -/
def splitCharAux (sep : Char) : List Char → List Char → List (List Char)
  | [], acc => [acc.reverse]
  | c :: rest, acc =>
    if c = sep then acc.reverse :: splitCharAux sep rest []
    else splitCharAux sep rest (c :: acc)

/-- `[k.strip() for k in keyword.split(',')]`. -/
def splitCommaStrip (k : String) : List String :=
  (splitCharAux ',' k.data []).map (fun l => String.mk (pyStripL l))

/-- Python `',' in k`. -/
def hasComma (k : String) : Bool :=
  k.data.contains ','

/-! ### `RDFProfile._keywords` -/

/-- `RDFProfile._keywords`: all `dcat:keyword` values; every keyword
containing a comma is removed (first occurrence, as `list.remove`) and its
comma-split, stripped pieces are appended, the comma-containing keywords
being snapshot from the original list. -/
def keywords (g : Graph) (ds : Node) : List String :=
  let ks := objectValueList g ds dcatKeyword
  let withCommas := ks.filter hasComma
  withCommas.foldl (fun acc k => acc.erase k ++ splitCommaStrip k) ks

/-! ### Claim C1: serialize then parse on title/notes/tags -/

/-- The triples `EuropeanDCATAPProfile.graph_from_dataset` adds to a fresh
graph for a record holding only `title`, `notes` and `tags` (every other
key is absent, so each remaining `_add_*` call resolves no value and adds
nothing; `resources` is empty and config flags are at their defaults).
Triples appear in the order the code adds them: `rdf:type`, `dct:title`
and `dct:description` (a basic item is only added when its value is
truthy), then one `dcat:keyword` literal per tag name. -/
def graphFromDatasetTNT (ds : Node) (title notes : String) (tagNames : List String) : Graph :=
  [(ds, rdfType, dcatDatasetCls)]
  ++ (if title = "" then [] else [(ds, dctTitle, Node.lit title none none)])
  ++ (if notes = "" then [] else [(ds, dctDescription, Node.lit notes none none)])
  ++ tagNames.map (fun t => (ds, dcatKeyword, Node.lit t none none))

/-- The `title`, `notes` and `tags` extraction of
`EuropeanDCATAPProfile.parse_dataset` (config defaults: locale `en` passed
as `dl`, `ckanext.dcat.clean_tags` false so `munge_tag` is not applied):
a basic field is set only when `_object_value` returns a non-empty string,
and the tag names are the `_keywords` list.  The remaining steps of
`parse_dataset` only touch `extras`, `resources` and `license_id`. -/
def parseDatasetTNT (dl : String) (g : Graph) (ds : Node) :
    Option String × Option String × List String :=
  let t := objectValue dl g ds dctTitle
  let n := objectValue dl g ds dctDescription
  ((if t = "" then none else some t), (if n = "" then none else some n), keywords g ds)

/-- C1: for a record with title `"T"`, notes `"N"` and tags
`[{name:"a"},{name:"b,c"}]`, serializing with the DCAT-AP v1 profile's
`graph_from_dataset` onto a fresh graph and parsing that graph back with
`parse_dataset` yields title `"T"`, notes `"N"`, and the set of tag names
`{"a","b","c"}` — the comma-containing keyword `"b,c"` is split into `"b"`
and `"c"` by the keyword extractor on parse. -/
theorem c1_roundtrip_title_notes_tags :
    parseDatasetTNT "en"
        (graphFromDatasetTNT (Node.uri "http://example.org/ds") "T" "N" ["a", "b,c"])
        (Node.uri "http://example.org/ds")
      = (some "T", some "N", ["a", "b", "c"])
    ∧ ((parseDatasetTNT "en"
        (graphFromDatasetTNT (Node.uri "http://example.org/ds") "T" "N" ["a", "b,c"])
        (Node.uri "http://example.org/ds")).2.2).toFinset
      = ({"a", "b", "c"} : Finset String) := by
  exact ⟨by decide, by decide⟩

/-! ### Python runtime errors surfaced by the embedded code -/

/-- The Python exception classes the embedded code can raise. -/
inductive PyErr where
  | nameError
  | assertionError
  | indexError
  | overflowError
  | valueError
deriving DecidableEq, Repr

/-- Python substring test `needle in hay` (char-list prefix check). -/
def isPieceAt : List Char → List Char → Bool
  | [], _ => true
  | _ :: _, [] => false
  | a :: as, b :: bs => decide (a = b) && isPieceAt as bs

/-- Python substring test `needle in hay`. -/
def hasSub (needle : List Char) : List Char → Bool
  | [] => isPieceAt needle []
  | c :: rest => isPieceAt needle (c :: rest) || hasSub needle rest

/-- Python `dict` built by successive key assignments: lookup returns the
value of the last assignment for the key, `None` when absent. -/
def dictGet (assocs : List (String × String)) (k : String) : Option String :=
  (assocs.reverse.find? (fun e => decide (e.1 = k))).map (fun e => e.2)

/-- Python key-membership test `k in d` for such a dict. -/
def hasKey (assocs : List (String × String)) (k : String) : Bool :=
  (dictGet assocs k).isSome

/-- Truthiness of a Python value that is `None` or a string
(`None` and `''` are falsy). -/
def optTruthy : Option String → Bool
  | none => false
  | some s => decide (s ≠ "")

/-- Python `str(x)` for an optional node, `str(None) = "None"`. -/
def strOfOptNode : Option Node → String
  | none => "None"
  | some n => strNode n

/-! ### Claim C2: `_access_rights` and the `accessRights` parse step -/

/-- `RDFProfile._access_rights`: empty string when there is no (truthy)
object; the `rdfs:label` of a blank node typed `dct:RightsStatement`;
else `str` of a literal or reference object; a blank node without that
type yields the empty string. -/
def accessRights (dl : String) (g : Graph) (s p : Node) : String :=
  match firstObject g s p with
  | none => ""
  | some obj =>
    if strNode obj = "" then ""
    else if isBNodeNode obj && decide (firstObject g obj rdfType = some dctRightsStatement) then
      objectValue dl g obj rdfsLabel
    else if isLitNode obj || isUriNode obj then
      strNode obj
    else ""

/-- The `access_rights` step of `EuropeanDCATAPProfile.parse_dataset`
(profiles.py lines 1094-1096).  The source computes
`access_rights = self._access_rights(dataset_ref, DCT.accessRights)` and,
when it is truthy, executes
`dataset_dict['extras'].append({'key': 'accessRights', 'value': accessRights})`
— but `accessRights` is an undefined name there (the bound local is
`access_rights`), so taking the branch raises `NameError` instead of
appending; with empty rights text the branch is skipped and no entry is
appended. -/
def parseAccessRightsStep (dl : String) (g : Graph) (ds : Node) :
    Except PyErr (List (String × String)) :=
  let ar := accessRights dl g ds dctAccessRights
  if ar = "" then Except.ok []
  else Except.error PyErr.nameError

/-- C2 (code bug): for a dataset whose `dct:accessRights` resolves to the
non-empty rights text `"public"`, the `accessRights` step of the DCAT-AP v1
`parse_dataset` raises `NameError` (undefined name `accessRights` at
profiles.py line 1096) instead of appending
`{'key': 'accessRights', 'value': "public"}` as the claim states. -/
theorem c2_access_rights_step_raises_name_error :
    accessRights "en"
        [(Node.uri "http://example.org/c2/ds", dctAccessRights, Node.lit "public" none none)]
        (Node.uri "http://example.org/c2/ds") dctAccessRights = "public"
    ∧ parseAccessRightsStep "en"
        [(Node.uri "http://example.org/c2/ds", dctAccessRights, Node.lit "public" none none)]
        (Node.uri "http://example.org/c2/ds") = Except.error PyErr.nameError :=
  ⟨by decide, rfl⟩

/-! ### Claim C4: `_license` scans distributions in declaration order -/

/-- `uri2id`: the license register mapped by URL (entries are
`(license_id, url, title)`; later registry entries overwrite earlier ones
with the same URL, as Python dict assignment does). -/
def uri2idOf (regs : List (String × String × String)) : List (String × String) :=
  regs.map (fun r => (r.2.1, r.1))

/-- `title2id`: the license register mapped by title. -/
def title2idOf (regs : List (String × String × String)) : List (String × String) :=
  regs.map (fun r => (r.2.2, r.1))

/-- The per-distribution body of the `_license` loop: the first
`dct:license` object, when truthy, is matched against the register by URI
(`license.toPython()`, the node text) and then, when that yields nothing
truthy, by the license node's `dct:title`; `none` when the distribution
contributes no truthy match. -/
def licenseOfDistribution (u2 t2 : List (String × String)) (dl : String)
    (g : Graph) (d : Node) : Option String :=
  match firstObject g d dctLicense with
  | none => none
  | some lic =>
    if strNode lic = "" then none
    else
      let byUri := dictGet u2 (strNode lic)
      let lid := if optTruthy byUri then byUri
                 else dictGet t2 (objectValue dl g lic dctTitle)
      if optTruthy lid then lid else none

/-- The `_license` loop over the dataset's distributions: return the first
truthy match, else the empty string. -/
def licenseGo (u2 t2 : List (String × String)) (dl : String) (g : Graph) :
    List Node → String
  | [] => ""
  | d :: rest =>
    match licenseOfDistribution u2 t2 dl g d with
    | some lid => lid
    | none => licenseGo u2 t2 dl g rest

/-- `RDFProfile._license`: build the URL and title registers and scan the
distributions (`_distributions`, i.e. the `dcat:distribution` objects) in
graph order. -/
def license (regs : List (String × String × String)) (dl : String)
    (g : Graph) (ds : Node) : String :=
  licenseGo (uri2idOf regs) (title2idOf regs) dl g (objects g ds dcatDistribution)

/-- The `_license` loop returns the head of the per-distribution matches,
in declaration order, with `""` when no distribution matches. -/
theorem licenseGo_eq_headD (u2 t2 : List (String × String)) (dl : String)
    (g : Graph) (l : List Node) :
    licenseGo u2 t2 dl g l
      = (l.filterMap (licenseOfDistribution u2 t2 dl g)).headD "" := by
  induction l with
  | nil => rfl
  | cons d rest ih =>
    simp only [licenseGo, List.filterMap]
    cases licenseOfDistribution u2 t2 dl g d with
    | none => simpa using ih
    | some lid => rfl

def c4ds : Node := Node.uri "http://example.org/c4/ds"

def c4regs : List (String × String × String) :=
  [("cc-by", "http://licenses.example.org/cc-by", "Creative Commons Attribution"),
   ("other-id", "http://licenses.example.org/other", "Other License")]

/-- First distribution lacks a license, second declares a registry URL. -/
def c4graphA : Graph :=
  [(c4ds, dcatDistribution, Node.uri "http://example.org/c4/dist1"),
   (c4ds, dcatDistribution, Node.uri "http://example.org/c4/dist2"),
   (Node.uri "http://example.org/c4/dist2", dctLicense,
    Node.uri "http://licenses.example.org/cc-by")]

/-- An even earlier distribution also matches the register. -/
def c4graphB : Graph :=
  [(c4ds, dcatDistribution, Node.uri "http://example.org/c4/dist0"),
   (c4ds, dcatDistribution, Node.uri "http://example.org/c4/dist1"),
   (c4ds, dcatDistribution, Node.uri "http://example.org/c4/dist2"),
   (Node.uri "http://example.org/c4/dist0", dctLicense,
    Node.uri "http://licenses.example.org/other"),
   (Node.uri "http://example.org/c4/dist2", dctLicense,
    Node.uri "http://licenses.example.org/cc-by")]

/-- A declared license matching nothing in the register. -/
def c4graphC : Graph :=
  [(c4ds, dcatDistribution, Node.uri "http://example.org/c4/dist1"),
   (Node.uri "http://example.org/c4/dist1", dctLicense,
    Node.uri "http://licenses.example.org/unknown")]

/-- C4: `_license` scans distributions in declaration order and returns the
register identifier of the first distribution with any register match (URI
first, then title): in general it equals the head of the per-distribution
matches; concretely, with the first distribution licenseless and the second
matching, the second's identifier is returned; an earlier matching
distribution wins over a later one; and with no match anywhere the empty
string is returned. -/
theorem c4_license_first_match :
    (∀ (regs : List (String × String × String)) (dl : String) (g : Graph) (ds : Node),
      license regs dl g ds
        = (((objects g ds dcatDistribution).filterMap
            (licenseOfDistribution (uri2idOf regs) (title2idOf regs) dl g)).headD ""))
    ∧ license c4regs "en" c4graphA c4ds = "cc-by"
    ∧ license c4regs "en" c4graphB c4ds = "other-id"
    ∧ license c4regs "en" c4graphC c4ds = "" :=
  ⟨fun regs dl g ds => licenseGo_eq_headD _ _ dl g _, by decide, by decide, by decide⟩

/-! ### Claim C5: `_distribution_format` before normalization -/

/-- `RDFProfile._distribution_format`.  `imt` is first assigned the
`_object_value` of `dcat:mediaType` (a string, `''` when absent — it is
never `None` from this point on); a literal `dct:format` becomes the media
type when `imt` is falsy and the text contains a slash, else the label; a
`dct:IMT`-typed format node contributes `str(g.value(...))` /
`str(g.label(...))` (both `"None"` when the node lacks them); a plain
reference becomes the media type when it looks like an IANA media-types
URI and `imt` is falsy, else the label.  With normalization enabled the
label is replaced from the format registry, the media type taking lookup
priority over the label. -/
def distributionFormat (dl : String) (fmtRegistry : List (String × String))
    (normalize : Bool) (g : Graph) (dist : Node) : Option String × Option String :=
  let imt0 : Option String := some (objectValue dl g dist dcatMediaType)
  let pair : Option String × Option String :=
    match firstObject g dist dctFormat with
    | some (Node.lit v _ _) =>
      if !optTruthy imt0 && v.data.contains '/' then (some v, none)
      else (imt0, some v)
    | some f =>
      if firstObject g f rdfType = some dctIMT then
        ((if !optTruthy imt0 then some (strOfOptNode (firstObject g f rdfValue)) else imt0),
         some (strOfOptNode (firstObject g f rdfsLabel)))
      else
        match f with
        | Node.uri u =>
          if hasSub "iana.org/assignments/media-types".data u.data && !optTruthy imt0 then
            (some u, none)
          else (imt0, some u)
        | _ => (imt0, none)
    | none => (imt0, none)
  if (optTruthy pair.1 || optTruthy pair.2) && normalize then
    match pair.1 with
    | some i =>
      if hasKey fmtRegistry i then (pair.1, dictGet fmtRegistry i)
      else
        match pair.2 with
        | some lb =>
          if hasKey fmtRegistry lb then (pair.1, dictGet fmtRegistry lb) else pair
        | none => pair
    | none =>
      match pair.2 with
      | some lb =>
        if hasKey fmtRegistry lb then (pair.1, dictGet fmtRegistry lb) else pair
      | none => pair
  else pair

def c5dist : Node := Node.uri "http://example.org/c5/dist"

/-- A distribution with `dct:format` literal `"CSV"` and no `dcat:mediaType`. -/
def c5graphCSV : Graph := [(c5dist, dctFormat, Node.lit "CSV" none none)]

/-- A distribution with `dct:format` literal `"text/csv"` and no
`dcat:mediaType`. -/
def c5graphSlash : Graph := [(c5dist, dctFormat, Node.lit "text/csv" none none)]

/-- C5 counterexample: for format literal `"CSV"` with no media type,
`_distribution_format` (normalization off) returns `('', "CSV")` — the
media-type slot holds the empty string, because `imt` was already assigned
the `''` of the absent `dcat:mediaType` — and not `(None, "CSV")` as the
claim states. -/
theorem c5_counterexample_media_type_is_empty_string :
    distributionFormat "en" [] false c5graphCSV c5dist = (some "", some "CSV")
    ∧ distributionFormat "en" [] false c5graphCSV c5dist
        ≠ ((none : Option String), some "CSV") :=
  ⟨by decide, by decide⟩

/-- C5 amended: before normalization, a slash-free format literal `"CSV"`
with no media type yields `('', "CSV")` (empty-string media type, the
code's falsy marker for "absent", rather than `None`), and a format literal
`"text/csv"` with no media type yields `("text/csv", None)`. -/
theorem c5_format_resolution_amended :
    distributionFormat "en" [] false c5graphCSV c5dist = (some "", some "CSV")
    ∧ distributionFormat "en" [] false c5graphSlash c5dist = (some "text/csv", none) :=
  ⟨by decide, by decide⟩

/-! ### Claim C3: `_get_source_catalog` -/

/-- `RDFProfile._get_root_catalog_ref`: the first subject of any
`dct:hasPart` triple; with none, the first subject typed `dcat:Catalog`;
`none` stands for the `IndexError` of `roots[0]` on an empty list. -/
def getRootCatalogRef (g : Graph) : Option Node :=
  match subjectsP g dctHasPart with
  | r :: _ => some r
  | [] => (subjectsPO g rdfType dcatCatalogCls).head?

/-- The tail of `_get_source_catalog` after the root is removed from the
claiming-catalog set: `assert len(catalogs) in (0, 1)` then `pop()` the
single element, else the root. -/
def sourceCatalogOfList (root : Node) : List Node → Except PyErr (Option Node)
  | [] => Except.ok (some root)
  | [c] => Except.ok (some c)
  | _ :: _ :: _ => Except.error PyErr.assertionError

/-- `set(self.g.subjects(DCAT.dataset, dataset_ref))` with the root catalog
removed: the deduplicated subjects linking to the dataset, minus the root. -/
def nonRootCatalogs (g : Graph) (ds root : Node) : List Node :=
  ((subjectsPO g dcatDatasetPred ds).dedup).filter (fun c => !decide (c = root))

/-- `RDFProfile._get_source_catalog`: `None` when sub-catalog exposure is
disabled; otherwise resolve the root (an `IndexError` without one), drop it
from the set of catalogs claiming the dataset via `dcat:dataset`, and
require at most one to remain. -/
def getSourceCatalog (exposeSubcatalogs : Bool) (g : Graph) (ds : Node) :
    Except PyErr (Option Node) :=
  if exposeSubcatalogs = false then Except.ok none
  else
    match getRootCatalogRef g with
    | none => Except.error PyErr.indexError
    | some root => sourceCatalogOfList root (nonRootCatalogs g ds root)

theorem mem_subjectsPO (g : Graph) (p o x : Node) :
    x ∈ subjectsPO g p o ↔ (x, p, o) ∈ g := by
  simp only [subjectsPO, List.mem_map, List.mem_filter, Bool.and_eq_true,
    decide_eq_true_eq]
  constructor
  · rintro ⟨⟨a, b, c⟩, ⟨ht, h1, h2⟩, rfl⟩
    subst h1
    subst h2
    exact ht
  · intro h
    exact ⟨(x, p, o), ⟨h, rfl, rfl⟩, rfl⟩

theorem mem_nonRootCatalogs (g : Graph) (ds root x : Node) :
    x ∈ nonRootCatalogs g ds root ↔ ((x, dcatDatasetPred, ds) ∈ g ∧ x ≠ root) := by
  simp [nonRootCatalogs, List.mem_filter, List.mem_dedup, mem_subjectsPO]

theorem nodup_nonRootCatalogs (g : Graph) (ds root : Node) :
    (nonRootCatalogs g ds root).Nodup :=
  (List.nodup_dedup _).filter _

theorem sourceCatalogOfList_error_of_two (root c1 c2 : Node) (l : List Node)
    (h1 : c1 ∈ l) (h2 : c2 ∈ l) (hne : c1 ≠ c2) :
    sourceCatalogOfList root l = Except.error PyErr.assertionError := by
  match l with
  | [] => cases h1
  | [x] =>
    rw [List.mem_singleton] at h1 h2
    exact absurd (h1.trans h2.symm) hne
  | _ :: _ :: _ => rfl

theorem eq_singleton_of_nodup_mem (l : List Node) (c : Node)
    (hnd : l.Nodup) (hc : c ∈ l) (hall : ∀ x ∈ l, x = c) : l = [c] := by
  match l with
  | [] => cases hc
  | [a] => rw [hall a (List.mem_singleton_self a)]
  | a :: b :: t =>
    exfalso
    have ha : a = c := hall a (List.mem_cons_self a _)
    have hb : b = c := hall b (List.mem_cons_of_mem a (List.mem_cons_self b t))
    exact (List.nodup_cons.mp hnd).1 (ha.trans hb.symm ▸ List.mem_cons_self b t)

/-- C3: with sub-catalog exposure enabled, two distinct non-root catalogs
both linking to the dataset via `dcat:dataset` make `_get_source_catalog`
fail with the assertion error rather than return either; with exactly one
non-root claiming catalog it returns that catalog, and with none it returns
the root catalog. -/
theorem c3_source_catalog_resolution :
    (∀ (g : Graph) (ds root c1 c2 : Node),
       getRootCatalogRef g = some root →
       (c1, dcatDatasetPred, ds) ∈ g → (c2, dcatDatasetPred, ds) ∈ g →
       c1 ≠ c2 → c1 ≠ root → c2 ≠ root →
       getSourceCatalog true g ds = Except.error PyErr.assertionError)
    ∧ (∀ (g : Graph) (ds root c : Node),
       getRootCatalogRef g = some root →
       (c, dcatDatasetPred, ds) ∈ g → c ≠ root →
       (∀ x, (x, dcatDatasetPred, ds) ∈ g → x = c ∨ x = root) →
       getSourceCatalog true g ds = Except.ok (some c))
    ∧ (∀ (g : Graph) (ds root : Node),
       getRootCatalogRef g = some root →
       (∀ x, (x, dcatDatasetPred, ds) ∈ g → x = root) →
       getSourceCatalog true g ds = Except.ok (some root)) := by
  refine ⟨?_, ?_, ?_⟩
  · intro g ds root c1 c2 hroot h1 h2 hne h1r h2r
    simp only [getSourceCatalog, Bool.true_eq_false, if_false, hroot]
    exact sourceCatalogOfList_error_of_two root c1 c2 _
      ((mem_nonRootCatalogs g ds root c1).mpr ⟨h1, h1r⟩)
      ((mem_nonRootCatalogs g ds root c2).mpr ⟨h2, h2r⟩) hne
  · intro g ds root c hroot hc hcr hall
    simp only [getSourceCatalog, Bool.true_eq_false, if_false, hroot]
    have hsingle : nonRootCatalogs g ds root = [c] := by
      refine eq_singleton_of_nodup_mem _ c (nodup_nonRootCatalogs g ds root)
        ((mem_nonRootCatalogs g ds root c).mpr ⟨hc, hcr⟩) ?_
      intro x hx
      obtain ⟨hxg, hxr⟩ := (mem_nonRootCatalogs g ds root x).mp hx
      rcases hall x hxg with h | h
      · exact h
      · exact absurd h hxr
    rw [hsingle]
    rfl
  · intro g ds root hroot hall
    simp only [getSourceCatalog, Bool.true_eq_false, if_false, hroot]
    have hnil : nonRootCatalogs g ds root = [] := by
      rw [List.eq_nil_iff_forall_not_mem]
      intro x hx
      obtain ⟨hxg, hxr⟩ := (mem_nonRootCatalogs g ds root x).mp hx
      exact hxr (hall x hxg)
    rw [hnil]
    rfl

def c3root : Node := Node.uri "http://example.org/c3/root"

def c3cat1 : Node := Node.uri "http://example.org/c3/cat1"

def c3cat2 : Node := Node.uri "http://example.org/c3/cat2"

def c3ds : Node := Node.uri "http://example.org/c3/ds"

/-- Two distinct non-root catalogs both claim the dataset. -/
def c3graphTwo : Graph :=
  [(c3root, dctHasPart, c3cat1),
   (c3cat1, dcatDatasetPred, c3ds),
   (c3cat2, dcatDatasetPred, c3ds)]

/-- One non-root catalog claims the dataset. -/
def c3graphOne : Graph :=
  [(c3root, dctHasPart, c3cat1),
   (c3cat1, dcatDatasetPred, c3ds)]

/-- Only the root links to the dataset. -/
def c3graphNone : Graph :=
  [(c3root, dctHasPart, c3cat1),
   (c3root, dcatDatasetPred, c3ds)]

/-- Witness for C3 at concrete graphs: assertion failure with two claiming
non-root catalogs, the single non-root catalog otherwise, the root with
none. -/
theorem c3_source_catalog_resolution_witness :
    getSourceCatalog true c3graphTwo c3ds = Except.error PyErr.assertionError
    ∧ getSourceCatalog true c3graphOne c3ds = Except.ok (some c3cat1)
    ∧ getSourceCatalog true c3graphNone c3ds = Except.ok (some c3root) := by
  refine ⟨?_, ?_, ?_⟩
  · exact c3_source_catalog_resolution.1 c3graphTwo c3ds c3root c3cat1 c3cat2
      (by decide) (by decide) (by decide) (by decide) (by decide) (by decide)
  · refine c3_source_catalog_resolution.2.1 c3graphOne c3ds c3root c3cat1
      (by decide) (by decide) (by decide) ?_
    intro x hx
    simp only [c3graphOne, List.mem_cons, List.not_mem_nil, or_false,
      Prod.mk.injEq] at hx
    rcases hx with ⟨h1, h2, h3⟩ | ⟨h1, h2, h3⟩
    · exact absurd h2 (by decide)
    · exact Or.inl h1
  · refine c3_source_catalog_resolution.2.2 c3graphNone c3ds c3root
      (by decide) ?_
    intro x hx
    simp only [c3graphNone, List.mem_cons, List.not_mem_nil, or_false,
      Prod.mk.injEq] at hx
    rcases hx with ⟨h1, h2, h3⟩ | ⟨h1, h2, h3⟩
    · exact absurd h2 (by decide)
    · exact h1

/-! ### Claim C6: `_object_value` language preference -/

/-- Whether a node is a literal whose language tag passes the truthy
default-locale test of `_object_value`. -/
def litTaggedDefault (dl : String) : Node → Bool
  | Node.lit _ lang _ => langIsDefault lang dl
  | _ => false

/-- The fallback `_object_value` ends up with when no default-locale
literal occurs: the first literal with non-empty text (an empty-string
literal never claims the fallback slot), else the empty string. -/
def firstNonEmptyLit : List Node → String
  | [] => ""
  | Node.lit v _ _ :: rest => if v = "" then firstNonEmptyLit rest else v
  | _ :: rest => firstNonEmptyLit rest

theorem objectValueGo_no_default (dl : String) :
    ∀ (l : List Node) (fb : String),
      (∀ o ∈ l, isLitNode o = true ∧ litTaggedDefault dl o = false) →
      objectValueGo dl l fb = if fb = "" then firstNonEmptyLit l else fb := by
  intro l
  induction l with
  | nil =>
    intro fb _
    by_cases hfb : fb = "" <;> simp [objectValueGo, firstNonEmptyLit, hfb]
  | cons o rest ih =>
    intro fb h
    obtain ⟨hlit, htag⟩ := h o (List.mem_cons_self o rest)
    have hrest : ∀ o ∈ rest, isLitNode o = true ∧ litTaggedDefault dl o = false :=
      fun x hx => h x (List.mem_cons_of_mem o hx)
    match o, hlit, htag with
    | Node.lit v lang d, _, htag =>
      have hlang : langIsDefault lang dl = false := by
        simpa [litTaggedDefault] using htag
      by_cases hfb : fb = ""
      · subst hfb
        by_cases hv : v = "" <;>
          simp [objectValueGo, hlang, firstNonEmptyLit, hv, ih _ hrest]
      · simp [objectValueGo, hlang, firstNonEmptyLit, hfb, ih _ hrest]

/-- C6 counterexample: the subject/predicate has no default-locale object
and the first literal encountered is the empty-string literal, yet
`_object_value` returns `"x"` (the first literal with non-empty text), not
the first literal's text — refuting "the first literal encountered is
returned". -/
theorem c6_counterexample_first_literal_not_returned :
    objects [(Node.uri "http://example.org/c6/s", Node.uri "http://example.org/c6/p",
              Node.lit "" none none),
             (Node.uri "http://example.org/c6/s", Node.uri "http://example.org/c6/p",
              Node.lit "x" none none)]
        (Node.uri "http://example.org/c6/s") (Node.uri "http://example.org/c6/p")
      = [Node.lit "" none none, Node.lit "x" none none]
    ∧ objectValue "en"
        [(Node.uri "http://example.org/c6/s", Node.uri "http://example.org/c6/p",
          Node.lit "" none none),
         (Node.uri "http://example.org/c6/s", Node.uri "http://example.org/c6/p",
          Node.lit "x" none none)]
        (Node.uri "http://example.org/c6/s") (Node.uri "http://example.org/c6/p") = "x"
    ∧ ("x" : String) ≠ "" :=
  ⟨by decide, by decide, by decide⟩

/-- C6 amended: with a non-empty default locale, (a) given one literal
tagged with the default locale and one untagged or otherwise-tagged
literal, `_object_value` returns the default-locale literal's text in
either triple order; (b) when every object is a literal and none passes
the default-locale test, the first literal with non-empty text is returned
(empty-string literals do not claim the fallback slot, so the empty string
results only when all literal texts are empty); (c) with no matching
object at all the empty string is returned. -/
theorem c6_object_value_amended :
    (∀ (dl : String) (s p : Node) (vd v : String) (dt dt2 lg : Option String),
       dl ≠ "" → lg ≠ some dl →
       objectValue dl [(s, p, Node.lit vd (some dl) dt), (s, p, Node.lit v lg dt2)] s p = vd
       ∧ objectValue dl [(s, p, Node.lit v lg dt2), (s, p, Node.lit vd (some dl) dt)] s p = vd)
    ∧ (∀ (dl : String) (g : Graph) (s p : Node),
       (∀ o ∈ objects g s p, isLitNode o = true ∧ litTaggedDefault dl o = false) →
       objectValue dl g s p = firstNonEmptyLit (objects g s p))
    ∧ (∀ (dl : String) (g : Graph) (s p : Node),
       objects g s p = [] → objectValue dl g s p = "") := by
  refine ⟨?_, ?_, ?_⟩
  · intro dl s p vd v dt dt2 lg hdl hlg
    have hdef : langIsDefault (some dl) dl = true := by simp [langIsDefault, hdl]
    have hoth : langIsDefault lg dl = false := by
      match lg with
      | none => rfl
      | some l =>
        have : l ≠ dl := fun h => hlg (by rw [h])
        simp [langIsDefault, this]
    constructor
    · simp [objectValue, objects, List.filter_cons, objectValueGo, hdef]
    · by_cases hv : v = "" <;>
        simp [objectValue, objects, List.filter_cons, objectValueGo, hdef, hoth, hv]
  · intro dl g s p h
    simpa using objectValueGo_no_default dl (objects g s p) "" h
  · intro dl g s p h
    simp [objectValue, h, objectValueGo]

/-- Witness for C6 amended at concrete inputs: the default-locale literal
wins in both orders, the first non-empty literal is the fallback, and the
empty graph yields the empty string. -/
theorem c6_object_value_amended_witness :
    (objectValue "en"
        [(Node.uri "http://example.org/c6w/s", Node.uri "http://example.org/c6w/p",
          Node.lit "hello" (some "en") none),
         (Node.uri "http://example.org/c6w/s", Node.uri "http://example.org/c6w/p",
          Node.lit "salut" (some "fr") none)]
        (Node.uri "http://example.org/c6w/s") (Node.uri "http://example.org/c6w/p") = "hello")
    ∧ (objectValue "en"
        [(Node.uri "http://example.org/c6w/s", Node.uri "http://example.org/c6w/p",
          Node.lit "" none none),
         (Node.uri "http://example.org/c6w/s", Node.uri "http://example.org/c6w/p",
          Node.lit "beta" none none)]
        (Node.uri "http://example.org/c6w/s") (Node.uri "http://example.org/c6w/p") = "beta")
    ∧ objectValue "en" ([] : Graph)
        (Node.uri "http://example.org/c6w/s") (Node.uri "http://example.org/c6w/p") = "" := by
  refine ⟨?_, ?_, ?_⟩
  · exact (c6_object_value_amended.1 "en" _ _ "hello" "salut" none none (some "fr")
      (by decide) (by decide)).1
  · exact (c6_object_value_amended.2.1 "en" _ _ _ (by decide)).trans (by decide)
  · exact c6_object_value_amended.2.2 "en" [] _ _ rfl

/-! ### Claim C10: `_publisher` / `_contact_details` overwrite wholesale -/

/-- The dict `_publisher` builds for one agent: every key is assigned on
every loop iteration (`''` when the agent lacks the property). -/
structure Agent where
  uri : String
  name : String
  email : String
  url : String
  ptype : String
deriving DecidableEq, Repr

/-- One iteration of the `_publisher` loop. -/
def extractPublisher (dl : String) (g : Graph) (agent : Node) : Agent :=
  { uri := if isUriNode agent then strNode agent else ""
  , name := objectValue dl g agent foafName
  , email := objectValue dl g agent foafMbox
  , url := objectValue dl g agent foafHomepage
  , ptype := objectValue dl g agent dctType }

/-- `RDFProfile._publisher`: the loop reassigns the whole field set per
agent; `none` models the empty dict returned with no agents. -/
def publisherDict (dl : String) (g : Graph) (s p : Node) : Option Agent :=
  (objects g s p).foldl (fun _ agent => some (extractPublisher dl g agent)) none

/-- Python `str.replace('mailto:', '')`: drop every occurrence of the
`mailto:` prefix pattern, scanning left to right. -/
def replaceMailto : List Char → List Char
  | [] => []
  | 'm' :: 'a' :: 'i' :: 'l' :: 't' :: 'o' :: ':' :: rest => replaceMailto rest
  | c :: rest => c :: replaceMailto rest

/-- `RDFProfile._without_mailto` (falsy values returned unchanged). -/
def withoutMailto (s : String) : String :=
  if s = "" then s else String.mk (replaceMailto s.data)

/-- `RDFProfile._get_vcard_property_value`: try the simple string property
first; else read `vcard:hasValue` off a blank-node object, or the
predicate's own object value. -/
def vcardPropertyValue (dl : String) (g : Graph) (subj pred : Node)
    (predStr : Option Node) : String :=
  let r0 := match predStr with
            | some ps => objectValue dl g subj ps
            | none => ""
  if r0 ≠ "" then r0
  else
    match firstObject g subj pred with
    | some (Node.bnode b) => objectValue dl g (Node.bnode b) vcardHasValue
    | _ => objectValue dl g subj pred

/-- The dict `_contact_details` builds for one agent. -/
structure Contact where
  uri : String
  name : String
  email : String
deriving DecidableEq, Repr

/-- One iteration of the `_contact_details` loop. -/
def extractContact (dl : String) (g : Graph) (agent : Node) : Contact :=
  { uri := if isUriNode agent then strNode agent else ""
  , name := vcardPropertyValue dl g agent vcardHasFN (some vcardFn)
  , email := withoutMailto (vcardPropertyValue dl g agent vcardHasEmail none) }

/-- `RDFProfile._contact_details`: same wholesale-overwrite loop shape. -/
def contactDict (dl : String) (g : Graph) (s p : Node) : Option Contact :=
  (objects g s p).foldl (fun _ agent => some (extractContact dl g agent)) none

theorem foldl_overwrite_eq_getLast {α β : Type} (f : α → β) :
    ∀ (l : List α) (init : Option β), l ≠ [] →
      l.foldl (fun _ a => some (f a)) init = l.getLast?.map f := by
  intro l
  induction l with
  | nil => intro init h; exact absurd rfl h
  | cons a t ih =>
    intro init _
    match t with
    | [] => rfl
    | b :: t2 =>
      have := ih (some (f a)) (by simp)
      simpa [List.foldl_cons, List.getLast?_cons_cons] using this

def c10ds : Node := Node.uri "http://example.org/c10/ds"

def c10agent1 : Node := Node.uri "http://example.org/c10/agent1"

def c10agent2 : Node := Node.uri "http://example.org/c10/agent2"

/-- Two publisher agents: the first declares only a name, the second only
an mbox. -/
def c10graph : Graph :=
  [(c10ds, dctPublisher, c10agent1),
   (c10agent1, foafName, Node.lit "Alice Agency" none none),
   (c10ds, dctPublisher, c10agent2),
   (c10agent2, foafMbox, Node.lit "info@second.example.org" none none)]

/-- C10 counterexample: with two publisher agents — the earlier one naming
`"Alice Agency"`, the later one carrying only an email — `_publisher`
returns the later agent's dict wholesale, its `name` being the empty
string: the earlier agent's name does not survive alongside the later
agent's uri/email, refuting the claimed per-field mixing. -/
theorem c10_counterexample_no_field_mixing :
    objectValue "en" c10graph c10agent1 foafName = "Alice Agency"
    ∧ publisherDict "en" c10graph c10ds dctPublisher
        = some { uri := "http://example.org/c10/agent2", name := "",
                 email := "info@second.example.org", url := "", ptype := "" }
    ∧ (publisherDict "en" c10graph c10ds dctPublisher).map Agent.name
        ≠ some "Alice Agency" :=
  ⟨by decide, by decide, by decide⟩

/-- C10 amended: when multiple agent objects exist for the same subject and
publisher (or contact) predicate, `_publisher` / `_contact_details` return
the dict extracted from the **last** agent in iteration order wholesale —
every field is reassigned on every iteration (with `''` when absent), so no
field of an earlier agent survives. -/
theorem c10_publisher_contact_last_object_wins :
    (∀ (dl : String) (g : Graph) (s p : Node),
       publisherDict dl g s p = (objects g s p).getLast?.map (extractPublisher dl g))
    ∧ (∀ (dl : String) (g : Graph) (s p : Node),
       contactDict dl g s p = (objects g s p).getLast?.map (extractContact dl g)) := by
  constructor
  · intro dl g s p
    match h : objects g s p with
    | [] => simp [publisherDict, h]
    | a :: t =>
      simpa [publisherDict, h] using
        foldl_overwrite_eq_getLast (extractPublisher dl g) (a :: t) none (by simp)
  · intro dl g s p
    match h : objects g s p with
    | [] => simp [contactDict, h]
    | a :: t =>
      simpa [contactDict, h] using
        foldl_overwrite_eq_getLast (extractContact dl g) (a :: t) none (by simp)

/-! ### Claim C8: `_add_date_triple` -/

/-- All characters are decimal digits. -/
def allDigits (l : List Char) : Bool :=
  l.all Char.isDigit

/-- Decimal value of a digit run. -/
def digitsToNat (l : List Char) : Nat :=
  l.foldl (fun acc c => acc * 10 + (c.toNat - 48)) 0

/-- Model of the external `dateutil.parser.parse` collaborator with the
`datetime(1, 1, 1, 0, 0, 0)` default `_add_date_triple` passes: restricted
to the shapes exercised here — a bare 4-digit year `"YYYY"` (missing
month/day/time taken from the default, i.e. January 1st, midnight) and an
ISO date `"YYYY-MM-DD"`; any other string stands for `dateutil` raising
`ValueError` (`none`). -/
def pyParseDate (s : String) : Option (Nat × Nat × Nat × Nat × Nat × Nat) :=
  match splitCharAux '-' s.data [] with
  | [y] =>
    if allDigits y && decide (y.length = 4) && decide (1 ≤ digitsToNat y) then
      some (digitsToNat y, 1, 1, 0, 0, 0)
    else none
  | [y, mo, d] =>
    if allDigits y && decide (y.length = 4) && decide (1 ≤ digitsToNat y)
        && allDigits mo && decide (mo ≠ []) && decide (mo.length ≤ 2)
        && decide (1 ≤ digitsToNat mo) && decide (digitsToNat mo ≤ 12)
        && allDigits d && decide (d ≠ []) && decide (d.length ≤ 2)
        && decide (1 ≤ digitsToNat d) && decide (digitsToNat d ≤ 31) then
      some (digitsToNat y, digitsToNat mo, digitsToNat d, 0, 0, 0)
    else none
  | _ => none

/-- Two-digit zero-padded decimal rendering. -/
def pad2 (n : Nat) : String :=
  ⟨[Char.ofNat (48 + n / 10 % 10), Char.ofNat (48 + n % 10)]⟩

/-- Four-digit zero-padded decimal rendering. -/
def pad4 (n : Nat) : String :=
  ⟨[Char.ofNat (48 + n / 1000 % 10), Char.ofNat (48 + n / 100 % 10),
    Char.ofNat (48 + n / 10 % 10), Char.ofNat (48 + n % 10)]⟩

/-- `datetime.isoformat()` for a whole-second datetime. -/
def isoformatDT : Nat × Nat × Nat × Nat × Nat × Nat → String
  | (y, mo, d, h, mi, s) =>
    pad4 y ++ "-" ++ pad2 mo ++ "-" ++ pad2 d ++ "T"
      ++ pad2 h ++ ":" ++ pad2 mi ++ ":" ++ pad2 s

/-- `RDFProfile._add_date_triple` (with the default `Literal` type): the
literal object added for `value`, or `none` when `value` is falsy and the
method returns without adding a triple.  A parsed date is emitted as its
ISO form typed `xsd:dateTime`; a `ValueError` from parsing falls back to
the raw string as an untyped literal. -/
def addDateTriple (value : String) : Option Node :=
  if value = "" then none
  else
    match pyParseDate value with
    | some dt => some (Node.lit (isoformatDT dt) none (some xsdDateTime))
    | none => some (Node.lit value none none)

/-- C8: serializing the date value `"1904"` emits the literal
`"1904-01-01T00:00:00"` typed `xsd:dateTime` (missing month/day/time
default to January 1st, midnight), and every non-empty value that fails
date parsing is emitted as the raw string in an untyped literal instead of
raising. -/
theorem c8_partial_date_expansion :
    addDateTriple "1904" = some (Node.lit "1904-01-01T00:00:00" none (some xsdDateTime))
    ∧ (∀ v : String, v ≠ "" → pyParseDate v = none →
        addDateTriple v = some (Node.lit v none none)) := by
  constructor
  · decide
  · intro v h1 h2
    simp [addDateTriple, h1, h2]

/-- Witness for C8's fallback branch at a concrete unparsable value. -/
theorem c8_partial_date_expansion_witness :
    addDateTriple "not a date" = some (Node.lit "not a date" none none) :=
  c8_partial_date_expansion.2 "not a date" (by decide) (by decide)

/-! ### Claim C9: `_object_value_int_list` -/

/-- A Python float as `float(str)` produces one.  The model keeps finite
values exact as `num / den` with `den` a power of ten (no binary rounding
and no overflow-to-infinity of huge decimal literals is modelled); the
explicit `inf` / `infinity` / `nan` spellings map to the special values. -/
inductive PyFloat where
  | finite (num : Int) (den : Nat)
  | inf
  | neginf
  | nan
deriving DecidableEq, Repr

/-- Lower-case a character list (Python `float` accepts any case for
`inf` / `infinity` / `nan`). -/
def toLowerL (l : List Char) : List Char :=
  l.map Char.toLower

/-- The digits-with-optional-point mantissa of a float literal:
`(value ignoring the point, number of fractional digits)`. -/
def parseMant (l : List Char) : Option (Nat × Nat) :=
  match splitCharAux '.' l [] with
  | [ip] =>
    if decide (ip ≠ []) && allDigits ip then some (digitsToNat ip, 0) else none
  | [ip, fp] =>
    if decide (ip ++ fp ≠ []) && allDigits (ip ++ fp) then
      some (digitsToNat (ip ++ fp), fp.length)
    else none
  | _ => none

/-- The optionally-signed exponent of a float literal. -/
def parseExp (l : List Char) : Option Int :=
  match l with
  | '+' :: rest =>
    if decide (rest ≠ []) && allDigits rest then some (Int.ofNat (digitsToNat rest)) else none
  | '-' :: rest =>
    if decide (rest ≠ []) && allDigits rest then some (-(Int.ofNat (digitsToNat rest))) else none
  | _ =>
    if decide (l ≠ []) && allDigits l then some (Int.ofNat (digitsToNat l)) else none

/-- Assemble a finite float from sign, mantissa, fractional length and
decimal exponent. -/
def mkFiniteFloat (sgn : Int) (mant fracLen : Nat) (e : Int) : PyFloat :=
  if 0 ≤ e then PyFloat.finite (sgn * Int.ofNat (mant * 10 ^ e.toNat)) (10 ^ fracLen)
  else PyFloat.finite (sgn * Int.ofNat mant) (10 ^ fracLen * 10 ^ (-e).toNat)

/-- Model of Python `float(s)`: strip, take an optional sign, accept
`inf` / `infinity` / `nan` (case-insensitive) or a decimal literal with
optional fraction and exponent; anything else raises `ValueError`
(`none`). -/
def pyFloatOfString (s : String) : Option PyFloat :=
  let l := toLowerL (pyStripL s.data)
  let sgn : Int := match l with
    | '+' :: _ => 1
    | '-' :: _ => -1
    | _ => 1
  let body : List Char := match l with
    | '+' :: rest => rest
    | '-' :: rest => rest
    | _ => l
  if body = "inf".data ∨ body = "infinity".data then
    some (if sgn = 1 then PyFloat.inf else PyFloat.neginf)
  else if body = "nan".data then
    some PyFloat.nan
  else
    match splitCharAux 'e' body [] with
    | [m] => (parseMant m).map (fun pr => mkFiniteFloat sgn pr.1 pr.2 0)
    | [m, ex] =>
      match parseMant m, parseExp ex with
      | some pr, some e => some (mkFiniteFloat sgn pr.1 pr.2 e)
      | _, _ => none
    | _ => none

/-- Python `int(x)` on a float: truncate toward zero; `OverflowError` on
the infinities, `ValueError` on NaN. -/
def pyIntOfFloat : PyFloat → Except PyErr Int
  | PyFloat.finite num den => Except.ok (Int.tdiv num (Int.ofNat den))
  | PyFloat.inf => Except.error PyErr.overflowError
  | PyFloat.neginf => Except.error PyErr.overflowError
  | PyFloat.nan => Except.error PyErr.valueError

/-- The loop of `RDFProfile._object_value_int_list`: falsy objects are
skipped by `if object:`; `int(float(object))` is wrapped in
`except ValueError` only — a `ValueError` (unparsable string, NaN) drops
the item silently, but the `OverflowError` raised by `int()` on an
infinite float is not caught and aborts the whole call. -/
def objectValueIntListGo : List Node → Except PyErr (List Int)
  | [] => Except.ok []
  | o :: rest =>
    if strNode o = "" then objectValueIntListGo rest
    else
      match pyFloatOfString (strNode o) with
      | none => objectValueIntListGo rest
      | some f =>
        match pyIntOfFloat f with
        | Except.ok n => (objectValueIntListGo rest).map (fun l => n :: l)
        | Except.error PyErr.valueError => objectValueIntListGo rest
        | Except.error e => Except.error e

/-- `RDFProfile._object_value_int_list`. -/
def objectValueIntList (g : Graph) (s p : Node) : Except PyErr (List Int) :=
  objectValueIntListGo (objects g s p)

/-- `RDFProfile._object_value_int`: same `except ValueError`-only slip on a
single `_object_value` result. -/
def objectValueInt (dl : String) (g : Graph) (s p : Node) : Except PyErr (Option Int) :=
  let ov := objectValue dl g s p
  if ov = "" then Except.ok none
  else
    match pyFloatOfString ov with
    | none => Except.ok none
    | some f =>
      match pyIntOfFloat f with
      | Except.ok n => Except.ok (some n)
      | Except.error PyErr.valueError => Except.ok none
      | Except.error e => Except.error e

def c9s : Node := Node.uri "http://example.org/c9/s"

def c9p : Node := Node.uri "http://example.org/c9/p"

/-- An object value `"inf"` between two parsable sizes. -/
def c9graphInf : Graph :=
  [(c9s, c9p, Node.lit "2" none none),
   (c9s, c9p, Node.lit "inf" none none),
   (c9s, c9p, Node.lit "5" none none)]

/-- Unparsable and NaN items around parsable ones. -/
def c9graphMixed : Graph :=
  [(c9s, c9p, Node.lit "3.7" none none),
   (c9s, c9p, Node.lit "abc" none none),
   (c9s, c9p, Node.lit "-2.9" none none),
   (c9s, c9p, Node.lit "nan" none none)]

/-- C9 (code bug): `_object_value_int_list` is not total — on the object
value `"inf"`, `float` succeeds and `int()` raises `OverflowError`, which
the `except ValueError` handler does not catch, so the whole list is
aborted instead of the item being dropped; ordinary unparsable and NaN
items are dropped silently as the claim describes. -/
theorem c9_int_list_overflow_aborts :
    objectValueIntList c9graphInf c9s c9p = Except.error PyErr.overflowError
    ∧ objectValueIntList c9graphMixed c9s c9p = Except.ok [3, -2] :=
  ⟨rfl, rfl⟩

/-! ### Claim C7: `CleanedURIRef._careful_quote` is idempotent -/

/-- Uppercase hexadecimal digit, as `urllib.parse.quote` renders it. -/
def hexDigitChar (n : Nat) : Char :=
  if n < 10 then Char.ofNat (48 + n) else Char.ofNat (55 + n)

/-- `urllib.parse.quote(c)` for a single ASCII character: `%XY` with
uppercase hex digits. -/
def pyQuote (c : Char) : List Char :=
  '%' :: [hexDigitChar (c.toNat / 16), hexDigitChar (c.toNat % 16)]

/-- The fixed character set of `CleanedURIRef._careful_quote`, in the
source's order (space, bang, double quote, dollar, apostrophe, parens,
asterisk, comma, semicolon, angle brackets, square brackets, curly
brackets with the vertical bar between them, backslash, caret, backtick;
written by character code to keep the file ASCII-plain). -/
def quotedCharList : List Char :=
  [Char.ofNat 32, Char.ofNat 33, Char.ofNat 34, Char.ofNat 36, Char.ofNat 39,
   Char.ofNat 40, Char.ofNat 41, Char.ofNat 42, Char.ofNat 44, Char.ofNat 59,
   Char.ofNat 60, Char.ofNat 62, Char.ofNat 91, Char.ofNat 93, Char.ofNat 123,
   Char.ofNat 124, Char.ofNat 125, Char.ofNat 92, Char.ofNat 94, Char.ofNat 96]

/-- One `value.replace(c, quote(c))` pass: every occurrence of the single
character `c` becomes its `%XY` escape. -/
def replOne (c : Char) : List Char → List Char
  | [] => []
  | ch :: rest => (if ch = c then pyQuote c else [ch]) ++ replOne c rest

/-- The `_careful_quote` loop over an arbitrary replacement-character
list. -/
def foldQuote (cs : List Char) (l : List Char) : List Char :=
  cs.foldl (fun acc c => replOne c acc) l

/-- `CleanedURIRef._careful_quote` on a character list. -/
def carefulQuote (l : List Char) : List Char :=
  foldQuote quotedCharList l

/-- The reference-cleaning step of `CleanedURIRef.__new__`:
`_careful_quote(value.strip())`. -/
def cleanedRef (s : String) : String :=
  ⟨carefulQuote (pyStripL s.data)⟩

theorem replOne_of_not_mem (c : Char) : ∀ (l : List Char), c ∉ l → replOne c l = l := by
  intro l
  induction l with
  | nil => intro _; rfl
  | cons ch rest ih =>
    intro h
    have hch : ch ≠ c := fun he => h (he ▸ List.mem_cons_self ch rest)
    simp [replOne, hch, ih (fun hm => h (List.mem_cons_of_mem ch hm))]

theorem mem_replOne (c d : Char) :
    ∀ (l : List Char), d ∈ replOne c l → d ∈ pyQuote c ∨ (d ∈ l ∧ d ≠ c) := by
  intro l
  induction l with
  | nil => intro h; cases h
  | cons ch rest ih =>
    intro h
    simp only [replOne] at h
    rcases List.mem_append.mp h with h1 | h2
    · by_cases hch : ch = c
      · rw [if_pos hch] at h1
        exact Or.inl h1
      · rw [if_neg hch] at h1
        have hd : d = ch := List.mem_singleton.mp h1
        exact Or.inr ⟨hd ▸ List.mem_cons_self ch rest, hd ▸ hch⟩
    · rcases ih h2 with h | ⟨hm, hne⟩
      · exact Or.inl h
      · exact Or.inr ⟨List.mem_cons_of_mem _ hm, hne⟩

theorem not_mem_foldQuote_preserve :
    ∀ (cs l : List Char) (d : Char),
      d ∉ l → (∀ c ∈ cs, d ∉ pyQuote c) → d ∉ foldQuote cs l := by
  intro cs
  induction cs with
  | nil => intro l d h _; exact h
  | cons c0 cs' ih =>
    intro l d hd hq
    have hd' : d ∉ replOne c0 l := by
      intro hmem
      rcases mem_replOne c0 d l hmem with h | ⟨hm, _⟩
      · exact hq c0 (List.mem_cons_self _ _) h
      · exact hd hm
    exact ih (replOne c0 l) d hd' (fun c hc => hq c (List.mem_cons_of_mem _ hc))

theorem not_mem_foldQuote_self :
    ∀ (cs : List Char), (∀ c' ∈ cs, ∀ d ∈ pyQuote c', d ∉ cs) →
      ∀ (l : List Char) (c : Char), c ∈ cs → c ∉ foldQuote cs l := by
  intro cs
  induction cs with
  | nil => intro _ l c hc; cases hc
  | cons c0 cs' ih =>
    intro hsafe l c hc
    show c ∉ foldQuote cs' (replOne c0 l)
    rcases List.mem_cons.mp hc with rfl | hc'
    · have h1 : c ∉ replOne c l := by
        intro hmem
        rcases mem_replOne c c l hmem with h | ⟨_, hne⟩
        · exact hsafe c hc c h hc
        · exact hne rfl
      have h2 : ∀ c' ∈ cs', c ∉ pyQuote c' := by
        intro c' hc'' hq
        exact hsafe c' (List.mem_cons_of_mem _ hc'') c hq hc
      exact not_mem_foldQuote_preserve cs' (replOne c l) c h1 h2
    · have hsafe' : ∀ c' ∈ cs', ∀ d ∈ pyQuote c', d ∉ cs' := by
        intro c' h1 d h2 h3
        exact hsafe c' (List.mem_cons_of_mem _ h1) d h2 (List.mem_cons_of_mem _ h3)
      exact ih hsafe' (replOne c0 l) c hc'

/-- No escape expansion of a quoted character contains a quoted
character. -/
theorem quotedCharList_safe :
    ∀ c ∈ quotedCharList, ∀ d ∈ pyQuote c, d ∉ quotedCharList := by decide

theorem foldQuote_id_of_not_mem :
    ∀ (cs l : List Char), (∀ c ∈ cs, c ∉ l) → foldQuote cs l = l := by
  intro cs
  induction cs with
  | nil => intro l _; rfl
  | cons c0 cs' ih =>
    intro l h
    show foldQuote cs' (replOne c0 l) = l
    rw [replOne_of_not_mem c0 l (h c0 (List.mem_cons_self _ _))]
    exact ih l (fun c hc => h c (List.mem_cons_of_mem _ hc))

theorem carefulQuote_idem (l : List Char) :
    carefulQuote (carefulQuote l) = carefulQuote l := by
  unfold carefulQuote
  exact foldQuote_id_of_not_mem quotedCharList _
    (fun c hc => not_mem_foldQuote_self quotedCharList quotedCharList_safe l c hc)

theorem head?_dropWhile_not (p : Char → Bool) :
    ∀ (l : List Char) (c : Char), (l.dropWhile p).head? = some c → p c = false := by
  intro l
  induction l with
  | nil => intro c h; cases h
  | cons a t ih =>
    intro c h
    cases hpa : p a with
    | true =>
      rw [List.dropWhile_cons, if_pos hpa] at h
      exact ih c h
    | false =>
      rw [List.dropWhile_cons, if_neg (by simp [hpa])] at h
      have : a = c := by simpa using h
      exact this ▸ hpa

theorem getLast?_cons_ne_nil (a : Char) (t : List Char) (h : t ≠ []) :
    (a :: t).getLast? = t.getLast? := by
  match t with
  | [] => exact absurd rfl h
  | b :: t2 => simp [List.getLast?_cons_cons]

theorem getLast?_append_right (a : List Char) :
    ∀ (b : List Char), b ≠ [] → (a ++ b).getLast? = b.getLast? := by
  induction a with
  | nil => intro b _; rfl
  | cons x xs ih =>
    intro b hb
    have hxs : xs ++ b ≠ [] := by simp [hb]
    rw [List.cons_append, getLast?_cons_ne_nil x (xs ++ b) hxs, ih b hb]

theorem getLast?_dropWhile_ne_nil (p : Char → Bool) :
    ∀ (l : List Char), l.dropWhile p ≠ [] → (l.dropWhile p).getLast? = l.getLast? := by
  intro l
  induction l with
  | nil => intro h; exact absurd rfl h
  | cons a t ih =>
    intro h
    cases hpa : p a with
    | true =>
      rw [List.dropWhile_cons, if_pos hpa] at h ⊢
      have ht : t ≠ [] := by
        intro he
        exact h (by simp [he])
      rw [getLast?_cons_ne_nil a t ht]
      exact ih h
    | false =>
      rw [List.dropWhile_cons, if_neg (by simp [hpa])]

/-- `str.strip()` leaves no leading or trailing whitespace. -/
theorem pyStripL_head_last (l : List Char) :
    (∀ c, (pyStripL l).head? = some c → isPySpace c = false)
    ∧ (∀ c, (pyStripL l).getLast? = some c → isPySpace c = false) := by
  constructor
  · intro c h
    rw [pyStripL, List.head?_reverse] at h
    by_cases hB : (l.dropWhile isPySpace).reverse.dropWhile isPySpace = []
    · rw [hB] at h
      cases h
    · rw [getLast?_dropWhile_ne_nil isPySpace _ hB, List.getLast?_reverse] at h
      exact head?_dropWhile_not isPySpace l c h
  · intro c h
    rw [pyStripL, List.getLast?_reverse] at h
    exact head?_dropWhile_not isPySpace _ c h

/-- `str.strip()` is the identity on a string with no whitespace at either
end. -/
theorem pyStripL_id (l : List Char)
    (h1 : ∀ c, l.head? = some c → isPySpace c = false)
    (h2 : ∀ c, l.getLast? = some c → isPySpace c = false) :
    pyStripL l = l := by
  have hA : l.dropWhile isPySpace = l := by
    cases l with
    | nil => rfl
    | cons a t =>
      rw [List.dropWhile_cons, if_neg (by simp [h1 a rfl])]
  rw [pyStripL, hA]
  have hB : l.reverse.dropWhile isPySpace = l.reverse := by
    cases hrev : l.reverse with
    | nil => rfl
    | cons a t =>
      have ha : l.getLast? = some a := by
        rw [← List.head?_reverse, hrev]
        rfl
      rw [List.dropWhile_cons, if_neg (by simp [h2 a ha])]
  rw [hB, List.reverse_reverse]

theorem head?_replOne_safe (c : Char) (l : List Char)
    (h : ∀ d, l.head? = some d → isPySpace d = false) :
    ∀ d, (replOne c l).head? = some d → isPySpace d = false := by
  match l with
  | [] => intro d hd; cases hd
  | ch :: rest =>
    intro d hd
    simp only [replOne] at hd
    by_cases hch : ch = c
    · rw [if_pos hch] at hd
      have : d = '%' := by simpa [pyQuote] using hd.symm
      rw [this]
      decide
    · rw [if_neg hch] at hd
      have : d = ch := by simpa using hd.symm
      exact this ▸ h ch rfl

theorem replOne_append (c : Char) :
    ∀ (a b : List Char), replOne c (a ++ b) = replOne c a ++ replOne c b := by
  intro a
  induction a with
  | nil => intro b; rfl
  | cons ch rest ih =>
    intro b
    simp [replOne, ih, List.append_assoc]

theorem isPySpace_hexDigitChar (n : Nat) (h : n < 16) :
    isPySpace (hexDigitChar n) = false := by
  interval_cases n <;> decide

theorem getLast?_replOne_safe (c : Char) (l : List Char)
    (h : ∀ d, l.getLast? = some d → isPySpace d = false) :
    ∀ d, (replOne c l).getLast? = some d → isPySpace d = false := by
  rcases List.eq_nil_or_concat l with rfl | ⟨init, x, rfl⟩
  · intro d hd
    cases hd
  · rw [List.concat_eq_append] at h ⊢
    intro d hd
    rw [replOne_append] at hd
    have hE : replOne c [x] = (if x = c then pyQuote c else [x]) := by simp [replOne]
    rw [hE] at hd
    by_cases hx : x = c
    · rw [if_pos hx, getLast?_append_right _ _ (by simp [pyQuote])] at hd
      have hlast : (pyQuote c).getLast? = some (hexDigitChar (c.toNat % 16)) := rfl
      rw [hlast] at hd
      have hd' : d = hexDigitChar (c.toNat % 16) := (Option.some.inj hd).symm
      rw [hd']
      exact isPySpace_hexDigitChar _ (Nat.mod_lt _ (by decide))
    · rw [if_neg hx, getLast?_append_right _ _ (by simp)] at hd
      have hdx : d = x := by simpa using hd.symm
      rw [hdx]
      exact h x (by simp [List.getLast?_concat])

theorem foldQuote_head_last_safe :
    ∀ (cs l : List Char),
      (∀ d, l.head? = some d → isPySpace d = false) →
      (∀ d, l.getLast? = some d → isPySpace d = false) →
      (∀ d, (foldQuote cs l).head? = some d → isPySpace d = false)
      ∧ (∀ d, (foldQuote cs l).getLast? = some d → isPySpace d = false) := by
  intro cs
  induction cs with
  | nil => intro l h1 h2; exact ⟨h1, h2⟩
  | cons c0 cs' ih =>
    intro l h1 h2
    exact ih (replOne c0 l) (head?_replOne_safe c0 l h1) (getLast?_replOne_safe c0 l h2)

/-- C7: the percent-encoding step of `CleanedURIRef` — strip, then encode
each character of the fixed set in sequence — is idempotent: applying it
twice yields the same string as applying it once, because the escape
expansions introduce neither quoted characters nor leading/trailing
whitespace, so the second pass finds nothing to strip or replace. -/
theorem c7_cleaned_ref_idempotent : ∀ (s : String), cleanedRef (cleanedRef s) = cleanedRef s := by
  intro s
  have hsafe := pyStripL_head_last s.data
  have hm := foldQuote_head_last_safe quotedCharList (pyStripL s.data) hsafe.1 hsafe.2
  have hstrip : pyStripL (carefulQuote (pyStripL s.data)) = carefulQuote (pyStripL s.data) :=
    pyStripL_id _ hm.1 hm.2
  have hdef : ∀ t : String, cleanedRef t = String.mk (carefulQuote (pyStripL t.data)) :=
    fun _ => rfl
  have hmk : ∀ l : List Char, (String.mk l).data = l := fun _ => rfl
  rw [hdef, hdef, hmk, hstrip]
  exact congrArg String.mk (carefulQuote_idem (pyStripL s.data))
